import Mathlib

/-!
# Verification of the DRL completion server and its clients

Shallow embedding of the completion-delivery core of the `intuit-monaco-drl-poc`
repository:

* `src/src/utils/factSchema.ts` — the fact-schema extractor;
* `src/src/utils/lsp-client.ts` — the rule-block locator (`detectRuleAtPosition`)
  and the client-side construction of modify suggestions (`triggerModifyRule`);
* `src/server/lsp-server.js` (latest revision in the file, the one with mode
  routing and LLM handlers) — the session store, the message handler of
  `startLSPServer`, and the generate/modify/inline handlers.

Conventions of the embedding:

* JSON values are the inductive `Jval` (numbers as `Int`; only `typeof`-style
  classification is ever needed, never float arithmetic).
* JavaScript objects are association lists `List (String × α)` in insertion
  order (JS object keys are unique and `Object.keys`/`Object.entries` preserve
  insertion order).
* The external LLM calls (`generateRuleWithLLM`, `modifyRuleWithLLM`) are
  replaced by an explicit outcome parameter `LlmOutcome`: `Except.ok` models a
  successful call returning `{drl, reasoning}`, `Except.error` models any
  network / parse / configuration failure that the `try/catch` in the server
  would catch.
* `console.log` calls are omitted; absent / `undefined` fields are `Option`;
  JS truthiness tests on strings/numbers are explicit emptiness / zero tests.
-/

/-! ## Generic string helpers (JS semantics) -/

/-- The whitespace characters recognised by the JS `\s` class and `trim`
(restricted to the ASCII range used by this code base). -/
def isJsWs (c : Char) : Bool :=
  c = ' ' || c = '\t' || c = '\n' || c = '\r' || c.toNat = 11 || c.toNat = 12

/-- JS `String.prototype.trim`: strip whitespace from both ends. -/
def jsTrim (s : String) : String :=
  ⟨((s.data.dropWhile isJsWs).reverse.dropWhile isJsWs).reverse⟩

/-- Boolean list-prefix test (needle first). -/
def listPrefixOf : List Char → List Char → Bool
  | [], _ => true
  | _ :: _, [] => false
  | a :: as, b :: bs => a = b && listPrefixOf as bs

/-- Boolean substring test on character lists: does the second list contain the
needle (first argument) as a contiguous sublist? -/
def listContains (needle : List Char) : List Char → Bool
  | [] => listPrefixOf needle []
  | c :: t => listPrefixOf needle (c :: t) || listContains needle t

/-- JS `String.prototype.includes`: `strContains hay needle` is true when
`needle` occurs contiguously inside `hay`. -/
def strContains (hay needle : String) : Bool :=
  listContains needle.data hay.data

/-- Helper of `splitLines`: accumulate the current line (reversed) while
walking the remaining characters. -/
def splitLinesAux (acc : List Char) : List Char → List String
  | [] => [⟨acc.reverse⟩]
  | c :: rest =>
    if c = '\n' then ⟨acc.reverse⟩ :: splitLinesAux [] rest
    else splitLinesAux (c :: acc) rest

/-- JS `text.split('\n')`: split on every newline, keeping empty segments
(`"" → [""]`, trailing newline yields a final `""`). Agrees with
`String.splitOn · "\n"`, but is structurally recursive so that concrete
instances evaluate in the kernel. -/
def splitLines (s : String) : List String :=
  splitLinesAux [] s.data

/-- First binding of a key in an association list (JS object property read). -/
def lookupStr {α : Type} : List (String × α) → String → Option α
  | [], _ => none
  | (k', v) :: rest, k => if k' = k then some v else lookupStr rest k

/-! ## JSON values and the fact-schema extractor (`src/src/utils/factSchema.ts`) -/

/-- A JSON value as manipulated by the fact-object plumbing. -/
inductive Jval : Type where
  | null : Jval
  | bool : Bool → Jval
  | num : Int → Jval
  | str : String → Jval
  | arr : List Jval → Jval
  | obj : List (String × Jval) → Jval

/-- The JS `typeof` operator on a JSON value (`typeof null` and
`typeof anArray` are both `"object"`). -/
def jsTypeof : Jval → String
  | .null => "object"
  | .bool _ => "boolean"
  | .num _ => "number"
  | .str _ => "string"
  | .arr _ => "object"
  | .obj _ => "object"

/-- `extractFactSchema` from `factSchema.ts`: classify each top-level value —
`null` first, then `Array.isArray`, else `typeof`. -/
def extractFactSchema (factObject : List (String × Jval)) : List (String × String) :=
  factObject.map fun kv =>
    (kv.1, match kv.2 with
      | .null => "null"
      | .arr _ => "array"
      | v => jsTypeof v)

/-- Modelled from the spec's words (§4.2): the classification the spec promises
for `extractSchema` — `null` → `"null"`, arrays → `"array"`, objects →
`"object"`, else the exact primitive type name. Used only to compare the source
function against the specification. -/
def specClassify : Jval → String
  | .null => "null"
  | .arr _ => "array"
  | .obj _ => "object"
  | .bool _ => "boolean"
  | .num _ => "number"
  | .str _ => "string"

/-! ## The session store and message model (`src/server/lsp-server.js`) -/

/-- Per-connection session state (the record stored in the `sessions` map). -/
structure Session where
  sessionId : String
  initialized : Bool
  factObject : List (String × Jval)
  factSchema : List (String × String)
  bddTests : String
  documentContent : String

/-- The fresh session installed on connection. -/
def freshSession (sessionId : String) : Session :=
  { sessionId := sessionId
    initialized := false
    factObject := []
    factSchema := []
    bddTests := ""
    documentContent := "" }

/-- Parameters of the `initialize/context` message; absent fields are `none`. -/
structure InitParams where
  factObject : Option (List (String × Jval))
  factSchema : Option (List (String × String))
  bddTests : Option String
  currentDrl : Option String

/-- `initializeSession` from the server: fill each field from the params with
the `|| default` fallback and set `initialized = true`. -/
def initializeSession (session : Session) (params : InitParams) : Session :=
  { session with
    factObject := params.factObject.getD []
    factSchema := params.factSchema.getD []
    bddTests := params.bddTests.getD ""
    documentContent := params.currentDrl.getD ""
    initialized := true }

/-- A fact field as produced by `getFactFields`. -/
structure FactField where
  name : String
  type : String
  value : Jval

/-- `getFactFields`: one entry per `factObject` key; the type comes from
`session.factSchema[key] || typeof session.factObject[key]` (the `||` falls
back on a missing or empty schema entry). -/
def getFactFields (session : Session) : List FactField :=
  session.factObject.map fun kv =>
    { name := kv.1
      type := match lookupStr session.factSchema kv.1 with
        | some t => if t = "" then jsTypeof kv.2 else t
        | none => jsTypeof kv.2
      value := kv.2 }

/-! ## Completion items, templates, and the mode handlers -/

/-- A completion item as sent in the server's `result.items` array.
`documentation` is the `{value}` markdown string when present. -/
structure CompletionItem where
  label : String
  kind : Nat
  detail : String
  insertText : String
  insertTextRules : Option Nat
  documentation : Option String
deriving DecidableEq

/-- One record of the `ruleTemplates` registry. -/
structure RuleTemplate where
  label : String
  detail : String
  documentation : String
  ruleContent : String
  kind : Nat
  insertTextRules : Nat
deriving DecidableEq

/-- The `ruleTemplates` array from the server source (a single record). -/
def ruleTemplates : List RuleTemplate :=
  [{ label := "Flag high premium greater than 500"
     detail := "DRL Rule Template"
     documentation := "A rule that flags quotes with premium greater than 500 for review"
     ruleContent := "rule \"Flag high premium greater than 500\"\nwhen\n    $quote : Quote(premium > 500)\nthen\n    $quote.setRequiresReview(true);\n    System.out.println(\"Quote requires case review\");\nend"
     kind := 14
     insertTextRules := 4 }]

/-- `buildCompletionsFromTemplates`: render each template as a completion item
(`template.kind || 14`, `template.detail || 'DRL Rule Template'`,
`template.insertTextRules || 4` model the JS `||` defaults). -/
def buildCompletionsFromTemplates (templates : List RuleTemplate) : List CompletionItem :=
  templates.map fun t =>
    { label := t.label
      kind := if t.kind = 0 then 14 else t.kind
      detail := if t.detail = "" then "DRL Rule Template" else t.detail
      insertText := t.ruleContent
      insertTextRules := some (if t.insertTextRules = 0 then 4 else t.insertTextRules)
      documentation := some t.documentation }

/-- `capitalize`: upper-case the first character. -/
def capitalize (str : String) : String :=
  match str.data with
  | [] => ""
  | c :: rest => ⟨c.toUpper :: rest⟩

/-- `getFactMethods`: getter (or `is...` for booleans) plus setter snippet. -/
def getFactMethods (fieldName fieldType : String) : List CompletionItem :=
  (if fieldType = "boolean" then
    [{ label := "is" ++ capitalize fieldName ++ "()"
       kind := 2
       detail := "boolean"
       insertText := "is" ++ capitalize fieldName ++ "()"
       insertTextRules := none
       documentation := none }]
  else
    [{ label := "get" ++ capitalize fieldName ++ "()"
       kind := 2
       detail := fieldType
       insertText := "get" ++ capitalize fieldName ++ "()"
       insertTextRules := none
       documentation := none }]) ++
  (let setterParam := if fieldType = "boolean" then "true" else if fieldType = "number" then "0" else "\"\""
   [{ label := "set" ++ capitalize fieldName ++ "(" ++ setterParam ++ ")"
      kind := 2
      detail := "void"
      insertText := "set" ++ capitalize fieldName ++ "($1)"
      insertTextRules := some 4
      documentation := none }])

/-- A 0-based cursor position. -/
structure Position where
  line : Nat
  character : Nat
deriving DecidableEq

/-- `handleCompletionRequest` (INLINE mode): the mock always returns the rule
template snippet, the DRL keywords, the `Quote`/`$quote` items, a field
comparison per numeric/boolean fact field, and the fact methods. The position
and document text are only used for logging in the source. -/
def handleCompletionRequest (session : Session) (_position : Position)
    (_documentContent : String) : List CompletionItem :=
  let factFields := getFactFields session
  [{ label := "rule \"Rule Name\"", kind := 14, detail := "DRL rule template"
     insertText := "rule \"$1\"\nwhen\n    $2\nthen\n    $3\nend"
     insertTextRules := some 4, documentation := none },
   { label := "when", kind := 14, detail := "DRL keyword", insertText := "when"
     insertTextRules := none, documentation := none },
   { label := "then", kind := 14, detail := "DRL keyword", insertText := "then"
     insertTextRules := none, documentation := none },
   { label := "end", kind := 14, detail := "DRL keyword", insertText := "end"
     insertTextRules := none, documentation := none },
   { label := "package", kind := 14, detail := "DRL keyword", insertText := "package "
     insertTextRules := none, documentation := none },
   { label := "import", kind := 14, detail := "DRL keyword", insertText := "import "
     insertTextRules := none, documentation := none },
   { label := "Quote", kind := 7, detail := "Quote fact object", insertText := "Quote"
     insertTextRules := none, documentation := none },
   { label := "$quote", kind := 6, detail := "Quote variable", insertText := "$quote"
     insertTextRules := none, documentation := none }] ++
  factFields.filterMap (fun field =>
    if field.type = "number" then
      some { label := field.name ++ " > 0", kind := 5, detail := field.type ++ " field"
             insertText := field.name ++ " > 0", insertTextRules := none, documentation := none }
    else if field.type = "boolean" then
      some { label := field.name ++ " == true", kind := 5, detail := field.type ++ " field"
             insertText := field.name ++ " == true", insertTextRules := none, documentation := none }
    else none) ++
  (factFields.map fun field => getFactMethods field.name field.type).flatten

/-! ## The mock modify transformer (`buildMockModifiedRule` and helpers) -/

/-- Match the regex `rule\s+"([^"]+)"` at the head of a character list and
return the capture group: `rule` case-insensitively, at least one whitespace,
a quote, at least one non-quote character, a closing quote. -/
def matchRuleNameAt : List Char → Option String
  | r :: u :: l :: e :: rest =>
    if r.toLower = 'r' && u.toLower = 'u' && l.toLower = 'l' && e.toLower = 'e' then
      match rest with
      | c :: rest2 =>
        if isJsWs c then
          match rest2.dropWhile isJsWs with
          | q :: rest3 =>
            if q = '"' then
              let name := rest3.takeWhile (fun d => !(d = '"'))
              match rest3.dropWhile (fun d => !(d = '"')) with
              | q2 :: _ => if q2 = '"' && !name.isEmpty then some ⟨name⟩ else none
              | [] => none
            else none
          | [] => none
        else none
      | [] => none
    else none
  | _ => none

/-- Unanchored search for `rule\s+"([^"]+)"/i` (the `baseRule.match(...)` call
in `buildMockModifiedRule`): try each start position left to right. -/
def searchRuleNameAux : List Char → Option String
  | [] => none
  | c :: rest =>
    match matchRuleNameAt (c :: rest) with
    | some n => some n
    | none => searchRuleNameAux rest

/-- Search a string for the first `rule "<name>"` pattern and return the name. -/
def searchRuleName (s : String) : Option String :=
  searchRuleNameAux s.data

/-- Case-insensitive prefix test on character lists. -/
def ciPrefix : List Char → List Char → Bool
  | [], _ => true
  | _ :: _, [] => false
  | a :: as, b :: bs => a.toLower = b.toLower && ciPrefix as bs

/-- Index of the first case-insensitive occurrence of `needle`, offset by `i`. -/
def ciFindAux (needle : List Char) : List Char → Nat → Option Nat
  | [], i => if needle.isEmpty then some i else none
  | c :: rest, i =>
    if ciPrefix needle (c :: rest) then some i else ciFindAux needle rest (i + 1)

/-- The lazy group of `a([\s\S]*?)b` (case-insensitive): the text between the
first occurrence of `a` and the first occurrence of `b` after it, or `none`
when the pattern does not match. -/
def findBetween (s a b : String) : Option String :=
  match ciFindAux a.data s.data 0 with
  | none => none
  | some i =>
    let afterA := s.data.drop (i + a.length)
    match ciFindAux b.data afterA 0 with
    | none => none
    | some j => some ⟨afterA.take j⟩

/-- `indentBlock`: trim each line and prefix the non-blank ones with `spaces`
spaces. -/
def indentBlock (text : String) (spaces : Nat) : String :=
  let pad : String := ⟨List.replicate spaces ' '⟩
  String.intercalate "\n" ((splitLines text).map fun line =>
    if (jsTrim line).length > 0 then pad ++ jsTrim line else "")

/-- The result record of `buildMockModifiedRule`. -/
structure MockRule where
  ruleName : String
  ruleText : String
deriving DecidableEq

/-- The sample rule substituted when `existingRule` is missing or blank. -/
def sampleBaseRule : String :=
  "rule \"Sample Rule\"\nwhen\n    $quote : Quote(premium > 500)\nthen\n    $quote.setRequiresReview(true);\nend"

/-- `buildMockModifiedRule`: rename the rule with a `" (Modified)"` suffix and
re-indent the extracted `when`/`then` bodies. (The `safePrompt` local of the
source is computed but never used, so it is omitted.) -/
def buildMockModifiedRule (existingRule userPrompt : Option String) : MockRule :=
  let _ := userPrompt
  let baseRule := match existingRule with
    | some s => if (jsTrim s).length > 0 then s else sampleBaseRule
    | none => sampleBaseRule
  let baseName := (searchRuleName baseRule).getD "Rule"
  let newRuleName := baseName ++ " (Modified)"
  let rawCondition := match findBetween baseRule "when" "then" with
    | some g => if jsTrim g = "" then "$quote : Quote(premium > 750)" else jsTrim g
    | none => "$quote : Quote(premium > 750)"
  let rawAction := match findBetween baseRule "then" "end" with
    | some g =>
      if jsTrim g = "" then "$quote.setRequiresReview(true);\n$quote.setEscalated(true);"
      else jsTrim g
    | none => "$quote.setRequiresReview(true);\n$quote.setEscalated(true);"
  let condition := indentBlock rawCondition 4
  let action := indentBlock rawAction 4
  { ruleName := newRuleName
    ruleText := "rule \"" ++ newRuleName ++ "\"\n\nwhen\n" ++ condition ++
      "\n\nthen\n" ++ action ++ "\n\nend" }

/-! ## The LLM-backed handlers and the message dispatcher -/

/-- The parsed `{drl, reasoning}` reply of a successful generation call. -/
structure LlmResult where
  drl : String
  reasoning : String
deriving DecidableEq

/-- Outcome of an external generation call: `ok` a parsed reply, `error` any
failure the server's `try/catch` would catch. -/
def LlmOutcome : Type := Except Unit LlmResult

/-- The `userPrompt || 'user request'` fallback used in documentation strings. -/
def promptOr (p : Option String) : String :=
  match p with
  | none => "user request"
  | some s => if s = "" then "user request" else s

/-- `handleCreateRequest` (GENERATE mode): wrap a successful generation as one
suggestion; on failure fall back to the template library. -/
def handleCreateRequest (outcome : LlmOutcome) : List CompletionItem :=
  match outcome with
  | .ok r =>
    [{ label := "Generated DRL Rule"
       kind := 14
       detail := r.reasoning
       insertText := r.drl
       insertTextRules := some 4
       documentation := some ("**Reasoning:**\n" ++ r.reasoning ++
         "\n\n**Generated DRL:**\n" ++ "```" ++ "drl\n" ++ r.drl ++ "\n" ++ "```") }]
  | .error _ => buildCompletionsFromTemplates ruleTemplates

/-- `handleModifyRequest` (MODIFY mode): wrap a successful modification as one
suggestion; on failure fall back to `buildMockModifiedRule`. -/
def handleModifyRequest (outcome : LlmOutcome) (userPrompt existingRule : Option String) :
    List CompletionItem :=
  match outcome with
  | .ok r =>
    [{ label := "Modified Rule"
       kind := 14
       detail := "Modified DRL Rule"
       insertText := r.drl
       insertTextRules := some 4
       documentation := some ("Modified rule based on: " ++ promptOr userPrompt ++
         "\n\nReasoning: " ++ r.reasoning) }]
  | .error _ =>
    let mock := buildMockModifiedRule existingRule userPrompt
    [{ label := "Modified Rule (Fallback)"
       kind := 14
       detail := "Modified DRL Rule (Mock)"
       insertText := mock.ruleText
       insertTextRules := some 4
       documentation := some ("Modified rule based on: " ++ promptOr userPrompt ++
         " (Fallback due to LLM error)") }]

/-- Parameters of a `textDocument/completion` request. -/
structure CompletionParams where
  position : Position
  mode : Option String
  userPrompt : Option String
  existingRule : Option String

/-- An incoming message, dispatched on `message.method`. `didChange` carries the
texts of `params.contentChanges` (absent payload = empty list); requests carry
their correlation id (`none` models an absent `id` field). -/
inductive ServerMsg : Type where
  | initCtx : Option Nat → InitParams → ServerMsg
  | didChange : List String → ServerMsg
  | completion : Option Nat → CompletionParams → ServerMsg
  | other : ServerMsg

/-- The payload of a response (`result.initialized` or `result.items`). -/
inductive RespResult : Type where
  | initializedAck : Bool → RespResult
  | items : List CompletionItem → RespResult
deriving DecidableEq

/-- An outgoing JSON-RPC response. -/
structure Response where
  id : Option Nat
  result : RespResult
deriving DecidableEq

/-- The `ws.on('message')` handler of `startLSPServer` (latest revision):
returns the updated session and the list of responses sent. The generation
outcomes of the two LLM entry points are passed as parameters. -/
def handleMessage (session : Session) (msg : ServerMsg)
    (genOutcome modOutcome : LlmOutcome) : Session × List Response :=
  match msg with
  | .initCtx id params =>
    (initializeSession session params, [{ id := id, result := .initializedAck true }])
  | .didChange texts =>
    match texts.head? with
    | some t => if t = "" then (session, []) else ({ session with documentContent := t }, [])
    | none => (session, [])
  | .completion id params =>
    let requestMode := match params.mode with
      | none => "generate"
      | some m => if m = "" then "generate" else m
    let documentContent := session.documentContent
    let completions :=
      if requestMode = "inline" then
        handleCompletionRequest session params.position documentContent
      else if requestMode = "modify" then
        handleModifyRequest modOutcome params.userPrompt params.existingRule
      else
        handleCreateRequest genOutcome
    (session, [{ id := id, result := .items completions }])
  | .other => (session, [])

/-! ## The rule-block locator (`detectRuleAtPosition`, `src/src/utils/lsp-client.ts`) -/

/-- Match the anchored header regex `^\s*rule\s+"([^"]+)"/i` against a line and
return the captured rule name. -/
def parseRuleHeader (line : String) : Option String :=
  matchRuleNameAt (line.data.dropWhile isJsWs)

/-- The terminator test `^\s*end\s*$/i`: only `end` (case-insensitively),
surrounded by whitespace. -/
def isEndLine (line : String) : Bool :=
  match line.data.dropWhile isJsWs with
  | e :: n :: d :: rest =>
    e.toLower = 'e' && n.toLower = 'n' && d.toLower = 'd' &&
      (rest.dropWhile isJsWs).isEmpty
  | _ => false

/-- Net brace count of a line: `+1` per opening brace, `-1` per closing brace. -/
def braceDelta (line : String) : Int :=
  line.data.foldl (fun a c => if c.toNat = 123 then a + 1 else if c.toNat = 125 then a - 1 else a) 0

/-- `lines[i]` of the JS source: the line at index `i`, `""` out of range. -/
def lineAt (lines : List String) (i : Nat) : String :=
  (lines.get? i).getD ""

/-- The backward scan of `detectRuleAtPosition`: from line `i` down to `0`,
return the first line matching the rule header together with its name. -/
def findRuleStart (lines : List String) : Nat → Option (Nat × String)
  | 0 =>
    match parseRuleHeader (lineAt lines 0) with
    | some n => some (0, n)
    | none => none
  | j + 1 =>
    match parseRuleHeader (lineAt lines (j + 1)) with
    | some n => some (j + 1, n)
    | none => findRuleStart lines j

/-- The forward scan of `detectRuleAtPosition`: walk the remaining lines from
index `i` with accumulated brace count `braces`; the first line that is a bare
`end` while the running brace count (after that line) is zero is the rule end. -/
def findRuleEndFrom : Nat → Int → List String → Option Nat
  | _, _, [] => none
  | i, braces, l :: ls =>
    let b := braces + braceDelta l
    if isEndLine l && b = 0 then some i else findRuleEndFrom (i + 1) b ls

/-- The rule context returned by the locator (all line/column fields 1-based,
as in Monaco). -/
structure RuleContext where
  fullRule : String
  ruleName : String
  startLine : Nat
  endLine : Nat
  startColumn : Nat
  endColumn : Nat
  isInsideRule : Bool
deriving DecidableEq

/-- `detectRuleAtPosition`: find the enclosing rule block of a (1-based) cursor
line. For `lineNumber = 0` the JS backward loop starts at index `-1` and never
runs, so the result is `null`; that case is returned directly. -/
def detectRuleAtPosition (content : String) (lineNumber : Nat) : Option RuleContext :=
  let lines := splitLines content
  match lineNumber with
  | 0 => none
  | cur + 1 =>
    match findRuleStart lines cur with
    | none => none
    | some (ruleStartLine, ruleName) =>
      match findRuleEndFrom ruleStartLine 0 (lines.drop ruleStartLine) with
      | none => none
      | some ruleEndLine =>
        if ruleStartLine ≤ cur ∧ cur ≤ ruleEndLine then
          let startLineContent := lineAt lines ruleStartLine
          let endLineContent := lineAt lines ruleEndLine
          some { fullRule := String.intercalate "\n"
                   ((lines.drop ruleStartLine).take (ruleEndLine + 1 - ruleStartLine))
                 ruleName := ruleName
                 startLine := ruleStartLine + 1
                 endLine := ruleEndLine + 1
                 startColumn := (startLineContent.data.takeWhile isJsWs).length + 1
                 endColumn := endLineContent.length + 1
                 isInsideRule := true }
        else none

/-! ## Client-side construction of modify suggestions (`triggerModifyRule`) -/

/-- The rule range the client supplies with a modify request
(1-based, as produced by the locator). -/
structure RuleRange where
  startLine : Nat
  endLine : Nat
  startColumn : Nat
  endColumn : Nat
deriving DecidableEq

/-- A Monaco replacement range. -/
structure MonacoRange where
  startLineNumber : Nat
  startColumn : Nat
  endLineNumber : Nat
  endColumn : Nat
deriving DecidableEq

/-- A Monaco suggestion as built by the modify response handler. -/
structure ClientSuggestion where
  label : String
  kind : Nat
  detail : String
  insertText : String
  insertTextRules : Option Nat
  documentation : Option String
  range : MonacoRange
deriving DecidableEq

/-- The response handler of `triggerModifyRule`: each server item becomes a
Monaco suggestion whose range is the supplied rule range
(`startColumn || 1`, `endColumn || model.getLineMaxColumn(endLine)`; the
Monaco Snippet kind, 27, is the `item.kind ||` fallback). -/
def clientModifySuggestions (ruleContext : RuleRange) (maxCol : Nat)
    (items : List CompletionItem) : List ClientSuggestion :=
  items.map fun item =>
    { label := item.label
      kind := if item.kind = 0 then 27 else item.kind
      detail := item.detail
      insertText := if item.insertText = "" then item.label else item.insertText
      insertTextRules := item.insertTextRules
      documentation := item.documentation
      range :=
        { startLineNumber := ruleContext.startLine
          startColumn := if ruleContext.startColumn = 0 then 1 else ruleContext.startColumn
          endLineNumber := ruleContext.endLine
          endColumn := if ruleContext.endColumn = 0 then maxCol else ruleContext.endColumn } }

/-! ## Substring lemmas -/

theorem listPrefixOf_append (n y : List Char) : listPrefixOf n (n ++ y) = true := by
  induction n with
  | nil => rfl
  | cons a as ih => simp [listPrefixOf, ih]

theorem listPrefixOf_append_both (x y z : List Char) :
    listPrefixOf (x ++ y) (x ++ z) = listPrefixOf y z := by
  induction x with
  | nil => rfl
  | cons a as ih => simp [listPrefixOf, ih]

theorem listContains_of_prefix {n h : List Char} (H : listPrefixOf n h = true) :
    listContains n h = true := by
  cases h with
  | nil => simpa [listContains] using H
  | cons c t => simp [listContains, H]

theorem listContains_append_left (x : List Char) {n h : List Char}
    (H : listContains n h = true) : listContains n (x ++ h) = true := by
  induction x with
  | nil => simpa using H
  | cons a as ih => simp [listContains, ih]

theorem listContains_here (n rest : List Char) : listContains n (n ++ rest) = true :=
  listContains_of_prefix (listPrefixOf_append n rest)

/-! ## C7 — the fact-schema extractor matches the spec's classification -/

/-- C7. For all fact objects, `extractFactSchema` is total, keeps exactly
the input's top-level keys (in order), classifies every value exactly as the
spec's `extractSchema` contract demands (`null`→`"null"`, arrays→`"array"`,
objects→`"object"`, primitives→their exact primitive-type name), and maps the
empty object to the empty mapping. -/
theorem extractFactSchema_matches_spec (fo : List (String × Jval)) :
    (extractFactSchema fo).map Prod.fst = fo.map Prod.fst ∧
    extractFactSchema fo = fo.map (fun kv => (kv.1, specClassify kv.2)) ∧
    extractFactSchema ([] : List (String × Jval)) = [] := by
  refine ⟨?_, ?_, rfl⟩
  · simp only [extractFactSchema, List.map_map]
    exact List.map_congr_left fun kv _ => rfl
  · exact List.map_congr_left fun kv _ => by
      cases kv with
      | mk k v => cases v <;> rfl

/-! ## C5 — context initialization without an explicit `factSchema` -/

/-- C5, counterexample. For the context-initialization message
`{factObject: {a: null}}` (no `factSchema`), the stored `factSchema` is the
empty mapping — not the Fact Schema Extractor's derivation `{a: "null"}` the
claim demands. -/
theorem initializeSession_no_derivation :
    (initializeSession (freshSession "s")
      { factObject := some [("a", Jval.null)], factSchema := none,
        bddTests := none, currentDrl := none }).factSchema = [] ∧
    extractFactSchema [("a", Jval.null)] = [("a", "null")] ∧
    ([] : List (String × String)) ≠ [("a", "null")] := by
  exact ⟨rfl, rfl, by decide⟩

/-- C5, amended. For every context-initialization message without a
`factSchema`, `initializeSession` stores the empty mapping as the session's
`factSchema` and sets `initialized` to true; field types are instead recovered
per field from `factObject` via the `typeof` fallback of `getFactFields`
(so `null` and arrays classify as `"object"`, unlike the Extractor). The
derivation via the Fact Schema Extractor happens in the client before the
message is sent, not in the server's context update. -/
theorem initializeSession_missing_schema (s : Session) (p : InitParams)
    (h : p.factSchema = none) :
    (initializeSession s p).factSchema = [] ∧
    (initializeSession s p).initialized = true ∧
    getFactFields (initializeSession s p) =
      (p.factObject.getD []).map
        (fun kv => { name := kv.1, type := jsTypeof kv.2, value := kv.2 }) := by
  refine ⟨by simp [initializeSession, h], rfl, ?_⟩
  simp [getFactFields, initializeSession, h, lookupStr]

/-- Witness for `initializeSession_missing_schema` at a concrete message. -/
theorem initializeSession_missing_schema_witness :
    (initializeSession (freshSession "w5")
      { factObject := some [("premium", Jval.num 600)], factSchema := none,
        bddTests := none, currentDrl := none }).factSchema = [] ∧
    (initializeSession (freshSession "w5")
      { factObject := some [("premium", Jval.num 600)], factSchema := none,
        bddTests := none, currentDrl := none }).initialized = true ∧
    getFactFields (initializeSession (freshSession "w5")
      { factObject := some [("premium", Jval.num 600)], factSchema := none,
        bddTests := none, currentDrl := none }) =
      [{ name := "premium", type := jsTypeof (Jval.num 600), value := Jval.num 600 }] :=
  initializeSession_missing_schema (freshSession "w5") _ rfl

/-! ## C6 / C10 — the document-change notification -/

/-- A session with a non-empty document, used to exercise the truthiness guard. -/
def c6Session : Session :=
  { freshSession "s6" with initialized := true, documentContent := "abc" }

/-- C6, counterexample. A document-change notification whose text is the
empty string does not replace the session's `documentContent` (the JS
truthiness guard skips falsy text): the document stays `"abc"`, not `""` as
the claim's wholesale replacement for *every* string would require; and no
response is emitted. -/
theorem didChange_empty_not_replaced :
    (handleMessage c6Session (.didChange [""]) (Except.error ()) (Except.error ())).1.documentContent
      = "abc" ∧
    ("abc" : String) ≠ "" ∧
    (handleMessage c6Session (.didChange [""]) (Except.error ()) (Except.error ())).2 = [] := by
  exact ⟨rfl, by decide, rfl⟩

/-- C6, amended. For every session and every *non-empty* string `text`,
handling the document-change notification `{text}` sets the session's
`documentContent` to exactly that string (wholesale replacement, no
validation) and emits no response; an empty text is skipped by the truthiness
guard. -/
theorem didChange_sets_document (s : Session) (t : String) (g m : LlmOutcome)
    (h : t ≠ "") :
    handleMessage s (.didChange [t]) g m = ({ s with documentContent := t }, []) := by
  simp [handleMessage, h]

/-- Witness for `didChange_sets_document` at a concrete session and text. -/
theorem didChange_sets_document_witness :
    handleMessage c6Session (.didChange ["rule"]) (Except.error ()) (Except.error ()) =
      ({ c6Session with documentContent := "rule" }, []) :=
  didChange_sets_document c6Session "rule" (Except.error ()) (Except.error ()) (by decide)

/-- C10. The document-change update is applied only for a non-empty
incoming text: an absent `contentChanges` payload or an empty text leaves the
session (and its `documentContent`) unchanged and produces no response, while
a non-empty text replaces `documentContent`. -/
theorem didChange_truthiness_guard (s : Session) (t : String) (g m : LlmOutcome) :
    handleMessage s (.didChange []) g m = (s, []) ∧
    handleMessage s (.didChange [""]) g m = (s, []) ∧
    (t ≠ "" → (handleMessage s (.didChange [t]) g m).1.documentContent = t) := by
  refine ⟨rfl, rfl, fun h => ?_⟩
  simp [handleMessage, h]

/-- Witness for `didChange_truthiness_guard` at a concrete session and text. -/
theorem didChange_truthiness_guard_witness :
    handleMessage c6Session (.didChange []) (Except.ok ⟨"d", "r"⟩) (Except.error ()) =
      (c6Session, []) ∧
    (handleMessage c6Session (.didChange ["xy"]) (Except.ok ⟨"d", "r"⟩)
      (Except.error ())).1.documentContent = "xy" :=
  ⟨(didChange_truthiness_guard c6Session "xy" _ _).1,
   (didChange_truthiness_guard c6Session "xy" _ _).2.2 (by decide)⟩

/-! ## C8 — correlation identifiers and notification silence -/

/-- C8. Every response the message handler emits carries the incoming
message's correlation identifier unchanged: a context-initialization request
and a completion request each produce exactly one response bearing the
request's id, while document-change notifications and unknown messages produce
no response at all. -/
theorem responses_echo_request_id (s : Session) (id : Option Nat) (ip : InitParams)
    (cp : CompletionParams) (texts : List String) (g m : LlmOutcome) :
    (handleMessage s (.initCtx id ip) g m).2.map Response.id = [id] ∧
    (handleMessage s (.completion id cp) g m).2.map Response.id = [id] ∧
    (handleMessage s (.didChange texts) g m).2 = [] ∧
    (handleMessage s .other g m).2 = [] := by
  refine ⟨rfl, rfl, ?_, rfl⟩
  cases texts with
  | nil => rfl
  | cons t ts => by_cases h : t = "" <;> simp [handleMessage, h]

/-! ## C1 — completion requests on an uninitialized session -/

/-- The generate-mode completion params used in the C1 scenario. -/
def generateParams : CompletionParams :=
  { position := ⟨0, 0⟩, mode := some "generate", userPrompt := none, existingRule := none }

/-- C1, counterexample. The mode-routed completion handler performs no
`initialized` check: on a fresh (uninitialized) session, a `mode="generate"`
completion request during a generation failure is answered with the template
fallback — one suggestion, not the empty list `{items: []}` the claim
requires. -/
theorem uninitialized_generate_not_empty :
    (freshSession "s1").initialized = false ∧
    ((handleMessage (freshSession "s1") (.completion (some 1) generateParams)
        (Except.error ()) (Except.error ())).2.map
      (fun r => match r.result with | .items xs => xs.length | _ => 0)) = [1] := by
  exact ⟨rfl, rfl⟩

/-- C1, amended. For every session whose `initialized` flag is false, a
`mode="generate"` completion request is still answered with exactly one
correlated items response and never an error, but — the mode-routed handler
having no `initialized` check — its result on generation failure is the
template library (one suggestion), not the empty suggestion list. -/
theorem uninitialized_generate_returns_templates (s : Session) (id : Option Nat)
    (p : CompletionParams) (m : LlmOutcome)
    (_hinit : s.initialized = false) (hmode : p.mode = some "generate") :
    (handleMessage s (.completion id p) (Except.error ()) m).2 =
      [{ id := id, result := .items (buildCompletionsFromTemplates ruleTemplates) }] ∧
    buildCompletionsFromTemplates ruleTemplates ≠ [] := by
  obtain ⟨pos, pmode, pup, per⟩ := p
  cases hmode
  exact ⟨rfl, by decide⟩

/-- Witness for `uninitialized_generate_returns_templates` on a fresh session. -/
theorem uninitialized_generate_returns_templates_witness :
    (handleMessage (freshSession "w1") (.completion (some 2) generateParams)
        (Except.error ()) (Except.ok ⟨"d", "r"⟩)).2 =
      [{ id := some 2, result := .items (buildCompletionsFromTemplates ruleTemplates) }] ∧
    buildCompletionsFromTemplates ruleTemplates ≠ [] :=
  uninitialized_generate_returns_templates (freshSession "w1") (some 2) generateParams
    (Except.ok ⟨"d", "r"⟩) rfl rfl

/-! ## C4 — generate-mode fallback to the template library -/

/-- C4. For every generate-mode completion request on an initialized
session, when the generation call fails the response's items are exactly the
Template Library rendered as suggestions in insertion order; with the library
holding its single record, the one item's label is
`"Flag high premium greater than 500"`. -/
theorem generate_failure_returns_templates (s : Session) (id : Option Nat)
    (p : CompletionParams) (m : LlmOutcome)
    (_hinit : s.initialized = true) (hmode : p.mode = some "generate") :
    (handleMessage s (.completion id p) (Except.error ()) m).2 =
      [{ id := id, result := .items (buildCompletionsFromTemplates ruleTemplates) }] ∧
    (buildCompletionsFromTemplates ruleTemplates).map CompletionItem.label =
      ["Flag high premium greater than 500"] := by
  obtain ⟨pos, pmode, pup, per⟩ := p
  cases hmode
  exact ⟨rfl, rfl⟩

/-- Witness for `generate_failure_returns_templates` at a concrete session. -/
theorem generate_failure_returns_templates_witness :
    (handleMessage c6Session (.completion (some 3) generateParams)
        (Except.error ()) (Except.error ())).2 =
      [{ id := some 3, result := .items (buildCompletionsFromTemplates ruleTemplates) }] ∧
    (buildCompletionsFromTemplates ruleTemplates).map CompletionItem.label =
      ["Flag high premium greater than 500"] :=
  generate_failure_returns_templates c6Session (some 3) generateParams
    (Except.error ()) rfl rfl

/-! ## C9 — inline suggestions are fact-field aware -/

/-- The session of the C9 scenario: initialized with
`factObject = {premium: 600, loyalCustomer: true}` and a document whose cursor
line ends in `Quote(`. -/
def c9Session : Session :=
  initializeSession (freshSession "c9")
    { factObject := some [("premium", Jval.num 600), ("loyalCustomer", Jval.bool true)]
      factSchema := none
      bddTests := none
      currentDrl := some "$q : Quote(" }

/-- The inline completion request of the C9 scenario (cursor at the end of the
single line). -/
def inlineParams : CompletionParams :=
  { position := ⟨0, 11⟩, mode := some "inline", userPrompt := none, existingRule := none }

/-- C9. On a session initialized with
`factObject = {premium: 600, loyalCustomer: true}`, an inline-mode completion
request whose cursor text ends in `Quote(` is answered with a suggestion list
containing at least one item referencing `premium` with a numeric comparison
and at least one item referencing `loyalCustomer` with a boolean comparison. -/
theorem inline_suggestions_reference_fact_fields :
    listPrefixOf "Quote(".data.reverse "$q : Quote(".data.reverse = true ∧
    ∃ items,
      (handleMessage c9Session (.completion (some 7) inlineParams)
          (Except.error ()) (Except.error ())).2 =
        [{ id := some 7, result := .items items }] ∧
      1 ≤ (items.filter fun it =>
        strContains it.insertText "premium" && strContains it.insertText ">").length ∧
      1 ≤ (items.filter fun it =>
        strContains it.insertText "loyalCustomer" && strContains it.insertText "==").length := by
  refine ⟨by decide, _, rfl, ?_, ?_⟩ <;> decide

/-! ## C2 — the modify-mode fallback suggestion -/

/-- The shape of `buildMockModifiedRule` on a well-formed existing rule: the
name gains the `" (Modified)"` suffix and the trimmed `when`/`then` bodies are
re-indented into the fixed template. -/
theorem buildMockModifiedRule_eq (userPrompt : Option String)
    (er name rawCond rawAct : String)
    (h1 : 0 < (jsTrim er).length)
    (h2 : searchRuleName er = some name)
    (h3 : (findBetween er "when" "then").map jsTrim = some rawCond)
    (h4 : rawCond ≠ "")
    (h5 : (findBetween er "then" "end").map jsTrim = some rawAct)
    (h6 : rawAct ≠ "") :
    buildMockModifiedRule (some er) userPrompt =
      { ruleName := name ++ " (Modified)"
        ruleText := "rule \"" ++ (name ++ " (Modified)") ++ "\"\n\nwhen\n" ++
          indentBlock rawCond 4 ++ "\n\nthen\n" ++ indentBlock rawAct 4 ++ "\n\nend" } := by
  obtain ⟨g, hg, hgt⟩ := Option.map_eq_some'.mp h3
  obtain ⟨g2, hg2, hgt2⟩ := Option.map_eq_some'.mp h5
  simp [buildMockModifiedRule, h1, h2, hg, hg2, hgt, hgt2, h4, h6]

/-- C2, counterexample. For the modify request whose existing rule is
`rule "R" / when / a / (two-space-indented) b / then / c / end`, the fallback
suggestion's `insertText` does **not** contain the original rule's condition
body `"a\n  b"` verbatim — `buildMockModifiedRule` re-indents every line to
four spaces — refuting the claim that the insert text contains the original
condition and action bodies. -/
theorem modify_fallback_reindents_counterexample :
    (findBetween "rule \"R\"\nwhen\na\n  b\nthen\nc\nend" "when" "then").map jsTrim =
      some "a\n  b" ∧
    ((handleModifyRequest (Except.error ()) none
        (some "rule \"R\"\nwhen\na\n  b\nthen\nc\nend")).map
      (fun it => strContains it.insertText "a\n  b")) = [false] := by
  exact ⟨rfl, by decide⟩

/-- C2, amended. For every modify-mode request with a non-empty (well-formed)
`existingRule` and a supplied `ruleRange` with non-zero columns, when the
generation call fails: the server responds with exactly one suggestion; its
`insertText` contains the original rule's condition and action bodies with each
line trimmed and re-indented by four spaces, under the rule name formed by
appending `" (Modified)"` to the original name; and the client-side modify
handler attaches to that single suggestion a replacement range that matches the
supplied `ruleRange` exactly. -/
theorem modify_fallback_structure (userPrompt : Option String)
    (er name rawCond rawAct : String) (rc : RuleRange) (maxCol : Nat)
    (h1 : 0 < (jsTrim er).length)
    (h2 : searchRuleName er = some name)
    (h3 : (findBetween er "when" "then").map jsTrim = some rawCond)
    (h4 : rawCond ≠ "")
    (h5 : (findBetween er "then" "end").map jsTrim = some rawAct)
    (h6 : rawAct ≠ "")
    (h7 : rc.startColumn ≠ 0)
    (h8 : rc.endColumn ≠ 0) :
    (handleModifyRequest (Except.error ()) userPrompt (some er)).length = 1 ∧
    (∀ it ∈ handleModifyRequest (Except.error ()) userPrompt (some er),
      strContains it.insertText (indentBlock rawCond 4) = true ∧
      strContains it.insertText (indentBlock rawAct 4) = true ∧
      strContains it.insertText ("rule \"" ++ (name ++ " (Modified)") ++ "\"") = true) ∧
    (clientModifySuggestions rc maxCol
        (handleModifyRequest (Except.error ()) userPrompt (some er))).map
      ClientSuggestion.range =
      [{ startLineNumber := rc.startLine, startColumn := rc.startColumn,
         endLineNumber := rc.endLine, endColumn := rc.endColumn }] ∧
    (buildMockModifiedRule (some er) userPrompt).ruleName = name ++ " (Modified)" := by
  have hm := buildMockModifiedRule_eq userPrompt er name rawCond rawAct h1 h2 h3 h4 h5 h6
  refine ⟨?_, ?_, ?_, ?_⟩
  · simp [handleModifyRequest, hm]
  · intro it hit
    simp only [handleModifyRequest, List.mem_singleton] at hit
    subst hit
    simp only [hm]
    refine ⟨?_, ?_, ?_⟩
    · simp only [strContains, String.data_append, List.append_assoc]
      exact listContains_append_left _ (listContains_append_left _
        (listContains_append_left _ (listContains_append_left _ (listContains_here _ _))))
    · simp only [strContains, String.data_append, List.append_assoc]
      exact listContains_append_left _ (listContains_append_left _
        (listContains_append_left _ (listContains_append_left _
          (listContains_append_left _ (listContains_append_left _ (listContains_here _ _))))))
    · simp only [strContains, String.data_append, List.append_assoc]
      apply listContains_of_prefix
      simp only [listPrefixOf_append_both]
      simp [listPrefixOf]
  · simp [clientModifySuggestions, handleModifyRequest, h7, h8]
  · rw [hm]

/-- Witness for `modify_fallback_structure` on a concrete modify request. -/
theorem modify_fallback_structure_witness :
    (handleModifyRequest (Except.error ()) (some "raise the threshold")
        (some "rule \"High Premium\"\nwhen\n    $quote : Quote(premium > 500)\nthen\n    $quote.setRequiresReview(true);\nend")).length = 1 ∧
    (∀ it ∈ handleModifyRequest (Except.error ()) (some "raise the threshold")
        (some "rule \"High Premium\"\nwhen\n    $quote : Quote(premium > 500)\nthen\n    $quote.setRequiresReview(true);\nend"),
      strContains it.insertText (indentBlock "$quote : Quote(premium > 500)" 4) = true ∧
      strContains it.insertText (indentBlock "$quote.setRequiresReview(true);" 4) = true ∧
      strContains it.insertText ("rule \"" ++ ("High Premium" ++ " (Modified)") ++ "\"") = true) ∧
    (clientModifySuggestions ⟨3, 7, 1, 4⟩ 10
        (handleModifyRequest (Except.error ()) (some "raise the threshold")
          (some "rule \"High Premium\"\nwhen\n    $quote : Quote(premium > 500)\nthen\n    $quote.setRequiresReview(true);\nend"))).map
      ClientSuggestion.range =
      [{ startLineNumber := 3, startColumn := 1, endLineNumber := 7, endColumn := 4 }] ∧
    (buildMockModifiedRule
        (some "rule \"High Premium\"\nwhen\n    $quote : Quote(premium > 500)\nthen\n    $quote.setRequiresReview(true);\nend")
        (some "raise the threshold")).ruleName = "High Premium" ++ " (Modified)" :=
  modify_fallback_structure (some "raise the threshold")
    "rule \"High Premium\"\nwhen\n    $quote : Quote(premium > 500)\nthen\n    $quote.setRequiresReview(true);\nend"
    "High Premium" "$quote : Quote(premium > 500)" "$quote.setRequiresReview(true);"
    ⟨3, 7, 1, 4⟩ 10 (by decide) rfl rfl (by decide) rfl (by decide) (by decide) (by decide)

/-! ## C3 — correctness of the rule-block locator -/

/-- The running brace count of the forward scan after processing lines
`h .. j` (the value the scan compares with zero at line `j`). -/
def braceCountThrough (lines : List String) (h j : Nat) : Int :=
  (((lines.drop h).take (j + 1 - h)).map braceDelta).sum

/-- The backward scan finds the nearest header at or above the cursor. -/
theorem findRuleStart_eq_some (lines : List String) (name : String) (h : Nat) :
    ∀ cur : Nat, h ≤ cur →
    parseRuleHeader (lineAt lines h) = some name →
    (∀ j, h < j → j ≤ cur → parseRuleHeader (lineAt lines j) = none) →
    findRuleStart lines cur = some (h, name) := by
  intro cur
  induction cur with
  | zero =>
    intro hle hh _
    have h0 : h = 0 := Nat.le_zero.mp hle
    subst h0
    simp [findRuleStart, hh]
  | succ j ih =>
    intro hle hh hnone
    by_cases hc : h = j + 1
    · subst hc
      simp [findRuleStart, hh]
    · have hle' : h ≤ j := by omega
      have hn : parseRuleHeader (lineAt lines (j + 1)) = none :=
        hnone (j + 1) (by omega) le_rfl
      simp only [findRuleStart, hn]
      exact ih hle' hh fun k hk1 hk2 => hnone k hk1 (by omega)

/-- When no line at or above the cursor matches the header pattern, the
backward scan fails. -/
theorem findRuleStart_eq_none (lines : List String) :
    ∀ cur : Nat, (∀ j, j ≤ cur → parseRuleHeader (lineAt lines j) = none) →
    findRuleStart lines cur = none := by
  intro cur
  induction cur with
  | zero =>
    intro hnone
    simp [findRuleStart, hnone 0 le_rfl]
  | succ j ih =>
    intro hnone
    simp only [findRuleStart, hnone (j + 1) le_rfl]
    exact ih fun k hk => hnone k (by omega)

/-- The forward scan stops exactly at the first bare `end` line reached with a
zero running brace count. Stated over the scanned suffix `ls`, with `i` the
absolute index of its first line and `b` the brace count accumulated so far. -/
theorem findRuleEndFrom_eq_some :
    ∀ (ls : List String) (i : Nat) (b : Int) (k : Nat),
    k < ls.length →
    isEndLine (lineAt ls k) = true →
    b + ((ls.take (k + 1)).map braceDelta).sum = 0 →
    (∀ m, m < k → ¬(isEndLine (lineAt ls m) = true ∧
      b + ((ls.take (m + 1)).map braceDelta).sum = 0)) →
    findRuleEndFrom i b ls = some (i + k) := by
  intro ls
  induction ls with
  | nil =>
    intro i b k hk
    exact absurd hk (by simp)
  | cons l rest ih =>
    intro i b k hk hEnd hZero hFirst
    cases k with
    | zero =>
      have hl : lineAt (l :: rest) 0 = l := rfl
      rw [hl] at hEnd
      have hz : b + braceDelta l = 0 := by
        simpa using hZero
      simp [findRuleEndFrom, hEnd, hz]
    | succ k' =>
      have hcur : ¬(isEndLine l = true ∧ b + braceDelta l = 0) := by
        have := hFirst 0 (Nat.succ_pos k')
        simpa using this
      have hcond : (isEndLine l && decide (b + braceDelta l = 0)) = false := by
        cases hE : isEndLine l
        · simp
        · have hz : ¬(b + braceDelta l = 0) := fun hz => hcur ⟨hE, hz⟩
          simp [hz]
      have hrec : findRuleEndFrom (i + 1) (b + braceDelta l) rest = some ((i + 1) + k') := by
        apply ih (i + 1) (b + braceDelta l) k'
        · simpa using hk
        · simpa [lineAt] using hEnd
        · have : b + ((List.take (k' + 2) (l :: rest)).map braceDelta).sum =
              (b + braceDelta l) + ((rest.take (k' + 1)).map braceDelta).sum := by
            simp [List.take_succ_cons]
            ring
          rw [← this]
          exact hZero
        · intro m hm
          have := hFirst (m + 1) (by omega)
          intro hcontra
          apply this
          constructor
          · simpa [lineAt] using hcontra.1
          · have : b + ((List.take (m + 2) (l :: rest)).map braceDelta).sum =
                (b + braceDelta l) + ((rest.take (m + 1)).map braceDelta).sum := by
              simp [List.take_succ_cons]
              ring
            rw [this]
            exact hcontra.2
      calc findRuleEndFrom i b (l :: rest)
          = findRuleEndFrom (i + 1) (b + braceDelta l) rest := by
            simp only [findRuleEndFrom, hcond]
            rfl
        _ = some ((i + 1) + k') := hrec
        _ = some (i + (k' + 1)) := by rw [show i + 1 + k' = i + (k' + 1) from by omega]

theorem lineAt_drop (lines : List String) (h m : Nat) :
    lineAt (lines.drop h) m = lineAt lines (h + m) := by
  simp [lineAt, List.get?_eq_getElem?, List.getElem?_drop]

/-- Both scans of the locator succeed on the rule block described by the
hypotheses: `h` is the nearest header line at or above the cursor and `e` the
first zero-depth terminator line at or after `h`. -/
theorem locator_scans (lines : List String) (cur h e : Nat) (name : String)
    (hh : parseRuleHeader (lineAt lines h) = some name)
    (hnone : ∀ j, h < j → j ≤ cur → parseRuleHeader (lineAt lines j) = none)
    (hEnd : isEndLine (lineAt lines e) = true)
    (hZero : braceCountThrough lines h e = 0)
    (hFirst : ∀ j, h ≤ j → j < e →
      ¬(isEndLine (lineAt lines j) = true ∧ braceCountThrough lines h j = 0))
    (hlen : e < lines.length)
    (hhe : h ≤ e)
    (hcur : h ≤ cur) :
    findRuleStart lines cur = some (h, name) ∧
    findRuleEndFrom h 0 (lines.drop h) = some e := by
  refine ⟨findRuleStart_eq_some lines name h cur hcur hh hnone, ?_⟩
  have hk : e - h < (lines.drop h).length := by
    simp only [List.length_drop]
    omega
  have hEnd' : isEndLine (lineAt (lines.drop h) (e - h)) = true := by
    rw [lineAt_drop, show h + (e - h) = e from by omega]
    exact hEnd
  have hZero' : (0 : Int) + (((lines.drop h).take ((e - h) + 1)).map braceDelta).sum = 0 := by
    rw [Int.zero_add, show (e - h) + 1 = e + 1 - h from by omega]
    exact hZero
  have hFirst' : ∀ m, m < e - h →
      ¬(isEndLine (lineAt (lines.drop h) m) = true ∧
        (0 : Int) + (((lines.drop h).take (m + 1)).map braceDelta).sum = 0) := by
    intro m hm hcontra
    apply hFirst (h + m) (by omega) (by omega)
    constructor
    · rw [← lineAt_drop]
      exact hcontra.1
    · rw [braceCountThrough, show h + m + 1 - h = m + 1 from by omega]
      have := hcontra.2
      rwa [Int.zero_add] at this
  have := findRuleEndFrom_eq_some (lines.drop h) h 0 (e - h) hk hEnd' hZero' hFirst'
  rwa [show h + (e - h) = e from by omega] at this

/-- C3. The rule-block locator is correct: for every document and every
(1-based) cursor line lying between a rule's header line and its terminator
line (inclusive) — `h` being the nearest header at or above the cursor and `e`
the first line at or after `h` that is a bare `end` with zero running brace
count — `detectRuleAtPosition` returns a block whose name is the quoted rule
name and whose `startLine`/`endLine` are exactly the (1-based) header and
terminator lines. For a cursor outside any rule it returns `null`: both when
no header exists at or above the cursor and when the enclosing candidate
rule's terminator lies strictly above the cursor. (All `j` indices below are
0-based; `cur + 1` is the 1-based cursor line.) -/
theorem detectRuleAtPosition_locates (content : String) (lines : List String)
    (cur h e : Nat) (name : String)
    (hl : splitLines content = lines) :
    ((parseRuleHeader (lineAt lines h) = some name) →
     (∀ j, h < j → j ≤ cur → parseRuleHeader (lineAt lines j) = none) →
     isEndLine (lineAt lines e) = true →
     braceCountThrough lines h e = 0 →
     (∀ j, h ≤ j → j < e →
       ¬(isEndLine (lineAt lines j) = true ∧ braceCountThrough lines h j = 0)) →
     e < lines.length →
     h ≤ cur → cur ≤ e →
     ∃ ctx, detectRuleAtPosition content (cur + 1) = some ctx ∧
       ctx.ruleName = name ∧ ctx.startLine = h + 1 ∧ ctx.endLine = e + 1) ∧
    ((∀ j, j ≤ cur → parseRuleHeader (lineAt lines j) = none) →
     detectRuleAtPosition content (cur + 1) = none) ∧
    ((parseRuleHeader (lineAt lines h) = some name) →
     (∀ j, h < j → j ≤ cur → parseRuleHeader (lineAt lines j) = none) →
     isEndLine (lineAt lines e) = true →
     braceCountThrough lines h e = 0 →
     (∀ j, h ≤ j → j < e →
       ¬(isEndLine (lineAt lines j) = true ∧ braceCountThrough lines h j = 0)) →
     e < lines.length →
     h ≤ e → e < cur →
     detectRuleAtPosition content (cur + 1) = none) := by
  refine ⟨?_, ?_, ?_⟩
  · intro hh hnone hEnd hZero hFirst hlen hcur1 hcur2
    obtain ⟨hs, he'⟩ := locator_scans lines cur h e name hh hnone hEnd hZero hFirst hlen
      (le_trans hcur1 hcur2) hcur1
    simp only [detectRuleAtPosition, hl, hs, he', if_pos (And.intro hcur1 hcur2)]
    exact ⟨_, rfl, rfl, rfl, rfl⟩
  · intro hnone
    have hs : findRuleStart lines cur = none := findRuleStart_eq_none lines cur hnone
    simp only [detectRuleAtPosition, hl, hs]
  · intro hh hnone hEnd hZero hFirst hlen hhe hcur
    obtain ⟨hs, he'⟩ := locator_scans lines cur h e name hh hnone hEnd hZero hFirst hlen
      hhe (by omega)
    have hnot : ¬(h ≤ cur ∧ cur ≤ e) := by omega
    simp only [detectRuleAtPosition, hl, hs, he', if_neg hnot]

/-- Witness for `detectRuleAtPosition_locates`: in a document whose only rule
`"R1"` spans (1-based) lines 3–7, `locate` at cursor line 5 returns
`{name := "R1", startLine := 3, endLine := 7}`. -/
theorem detectRuleAtPosition_locates_witness :
    ∃ ctx, detectRuleAtPosition
        "package demo\n\nrule \"R1\"\nwhen\n    $q : Quote(premium > 500)\nthen\nend"
        5 = some ctx ∧
      ctx.ruleName = "R1" ∧ ctx.startLine = 3 ∧ ctx.endLine = 7 := by
  have := (detectRuleAtPosition_locates
    "package demo\n\nrule \"R1\"\nwhen\n    $q : Quote(premium > 500)\nthen\nend"
    (splitLines "package demo\n\nrule \"R1\"\nwhen\n    $q : Quote(premium > 500)\nthen\nend")
    4 2 6 "R1" rfl).1
  apply this
  · decide
  · intro j h1 h2
    interval_cases j <;> decide
  · decide
  · decide
  · intro j h1 h2
    interval_cases j <;> decide
  · decide
  · decide
  · decide
